import Mathlib

/-!
# Verification of the kube-oidc-proxy request path

A shallow embedding of `pkg/proxy/proxy.go`: the request-path state machine
of the authenticating reverse proxy (`Proxy.RoundTrip`, `Proxy.tokenReview`,
`Proxy.hasImpersonation`, `Proxy.Error`), together with theorems settling the
specification's claims about it.

Modelling conventions:
* An HTTP header set is an association list from header name to the ordered
  list of values (Go's `http.Header`).  Go map keys are unique; the lemmas
  here do not depend on that.
* `strings.ToLower` is modelled by `lowerStr`, ASCII case folding (header
  names are ASCII tokens).
* The external request authenticator (`bearertoken.Authenticator` wrapping
  the OIDC token authenticator, from k8s.io/apiserver) and the TokenReview
  client are collaborators outside this repository; they are parameters of
  the model (`Proxy.auth`, `Proxy.review`).  The Go authenticator mutates
  the request it is given (it deletes the `Authorization` header on
  success); in the pure model a success result carries the post-
  authentication header set of the clone, and the property that the
  authenticator deletes exactly the `Authorization` header is the
  `StripsOnlyAuth` predicate, used as a hypothesis where a claim needs it.
* `http.Error(rw, body, code)` is modelled as producing the pair
  `(code, body)` (the trailing newline `fmt.Fprintln` appends is abstracted
  away).
* A completed round trip is a `Forwarded` value recording which upstream
  transport carried the request: `passthrough` is `noAuthClientTransport`
  (TLS only, no proxy credentials, no impersonation headers), `impersonate`
  is the impersonating round tripper wrapped around `clientTransport` (the
  proxy's own credentials), with the `ImpersonationConfig` it was built from.
-/

namespace KubeOidcProxy

/-- ASCII case folding of one character, as `strings.ToLower` acts on the
ASCII subset. -/
def lowerChar (c : Char) : Char :=
  if 65 ≤ c.toNat ∧ c.toNat ≤ 90 then Char.ofNat (c.toNat + 32) else c

/-- `strings.ToLower` on ASCII strings. -/
def lowerStr (s : String) : String :=
  String.mk (s.data.map lowerChar)

/-- An HTTP header set: name, ordered values (Go `http.Header`). -/
abbrev Header := List (String × List String)

/-- The part of `*http.Request` the proxy reads: the header set and the
remote client address. -/
structure Request where
  headers : Header
  remoteAddr : String
deriving DecidableEq, Repr

/-- `transport.ImpersonateUserHeader` lowered, as in the `var` block. -/
def impersonateUserHeader : String := lowerStr "Impersonate-User"

/-- `transport.ImpersonateGroupHeader` lowered, as in the `var` block. -/
def impersonateGroupHeader : String := lowerStr "Impersonate-Group"

/-- `transport.ImpersonateUserExtraHeaderPrefix` lowered, as in the `var`
block. -/
def impersonateExtraHeader : String := lowerStr "Impersonate-Extra-"

/-- `UserHeaderClientIPKey` constant. -/
def UserHeaderClientIPKey : String := "Remote-Client-IP"

/-- `authuser.AllAuthenticated` (k8s.io/apiserver). -/
def AllAuthenticated : String := "system:authenticated"

/-- `user.Info` as the proxy reads it: `GetName`, `GetGroups`, `GetExtra`
(`GetExtra` may be a nil map). -/
structure UserInfo where
  name : String
  groups : List String
  extra : Option (List (String × List String))
deriving DecidableEq, Repr

/-- Result of `oidcRequestAuther.AuthenticateRequest(reqCpy)`, the
`(info, ok, err)` triple.  `success` carries the header set of the clone
after the authenticator's mutation; `notOk` is `ok = false, err = nil`;
`authErr` is `err != nil`. -/
inductive AuthResult where
  | success (user : UserInfo) (newHeaders : Header)
  | notOk
  | authErr
deriving DecidableEq

/-- Result of `tokenReviewer.Review(req)`, the `(ok, err)` pair:
`Except.ok b` is `err = nil` with verdict `b`, `Except.error ()` is
`err != nil`. -/
abbrev ReviewResult := Except Unit Bool

/-- `proxy.Options`. -/
structure Options where
  DisableImpersonation : Bool
  TokenReview : Bool
  ExtraUserHeaders : List (String × List String)
  ExtraUserHeadersClientIPEnabled : Bool
deriving DecidableEq, Repr

/-- The proxy with its external collaborators as model parameters. -/
structure Proxy where
  options : Options
  auth : Request → AuthResult
  review : Request → ReviewResult

/-- The sentinel errors of the `var` block: `errUnauthorized`,
`errImpersonateHeader`, `errNoName`; `other` stands for any distinct
non-nil error reaching `Proxy.Error`. -/
inductive ProxyErr where
  | unauthorized
  | impersonateHeader
  | noName
  | other (msg : String)
deriving DecidableEq, Repr

/-- `transport.ImpersonationConfig` as filled in by `RoundTrip`. -/
structure ImpersonationConfig where
  UserName : String
  Groups : List String
  Extra : List (String × List String)
deriving DecidableEq, Repr

/-- A request that completed `RoundTrip`: which upstream transport carried
it and with what request (and, when impersonating, what configuration). -/
inductive Forwarded where
  | passthrough (req : Request)
  | impersonate (conf : ImpersonationConfig) (req : Request)
deriving DecidableEq, Repr

/-- `Proxy.hasImpersonation`: any header name that lowercases to
`impersonate-user` or `impersonate-group`, or whose lowercase form starts
with `impersonate-extra-`. -/
def hasImpersonation (header : Header) : Bool :=
  header.any fun h =>
    lowerStr h.1 == impersonateUserHeader ||
    lowerStr h.1 == impersonateGroupHeader ||
    List.isPrefixOf impersonateExtraHeader.data (lowerStr h.1).data

/-- `req.Header.Del("Authorization")`: remove the Authorization entry
(header names are case-insensitive). -/
def eraseAuth (h : Header) : Header :=
  h.filter fun kv => !(lowerStr kv.1 == "authorization")

/-- Whether a header set still carries an Authorization entry. -/
def hasAuthorization (h : Header) : Bool :=
  h.any fun kv => lowerStr kv.1 == "authorization"

/-- The external bearer-token authenticator deletes exactly the
`Authorization` header of the request it authenticates, and nothing else:
on success the clone's headers are the inbound headers with the
Authorization entry removed. -/
def StripsOnlyAuth (auth : Request → AuthResult) : Prop :=
  ∀ r u hdrs, auth r = .success u hdrs → hdrs = eraseAuth r.headers

/-- Go's `extra[k] = append(extra[k], v)` on a string-keyed map of string
slices, on the association-list model: append `v` to the entry for `k`
(map keys are unique, so at most one entry matches), creating the entry
when absent. -/
def appendExtra : List (String × List String) → String → String →
    List (String × List String)
  | [], k, v => [(k, [v])]
  | kv :: t, k, v =>
      if kv.1 == k then (kv.1, kv.2 ++ [v]) :: t
      else kv :: appendExtra t k v

/-- Map lookup with Go's zero value: the value slice for `k`, `[]` when
absent. -/
def lookupExtra : List (String × List String) → String → List String
  | [], _ => []
  | kv :: t, k => if kv.1 == k then kv.2 else lookupExtra t k

/-- The values a key receives from the configured `ExtraUserHeaders`
entries, in configuration order. -/
def flatValues : List (String × List String) → String → List String
  | [], _ => []
  | kv :: t, k => (if kv.1 == k then kv.2 else []) ++ flatValues t k

/-- The `for k, vs := range p.options.ExtraUserHeaders { for _, v := range
vs { extra[k] = append(extra[k], v) } }` loop.  Go map iteration order over
distinct keys is unspecified; the model fixes the configured list order,
and the theorems only use the per-key value order, which Go does fix. -/
def mergeExtraUserHeaders (extra : List (String × List String))
    (cfg : List (String × List String)) : List (String × List String) :=
  cfg.foldl (fun e kv => kv.2.foldl (fun e2 v => appendExtra e2 kv.1 v) e) extra

/-- `Proxy.tokenReview`: passthrough on `err == nil && ok`, otherwise
`errUnauthorized`. -/
def Proxy.tokenReview (p : Proxy) (req : Request) : Except ProxyErr Forwarded :=
  match p.review req with
  | .ok true => .ok (.passthrough req)
  | .ok false => .error .unauthorized
  | .error _ => .error .unauthorized

/-- `Proxy.RoundTrip`.  `utilnet.CloneRequest` deep-copies the header set;
in the pure model the clone is the same value and the authenticator's
mutation of it is the `newHeaders` field of a success result. -/
def Proxy.RoundTrip (p : Proxy) (req : Request) : Except ProxyErr Forwarded :=
  let reqCpy := req
  match p.auth reqCpy with
  | .authErr =>
      if p.options.TokenReview then
        p.tokenReview reqCpy
      else
        .error .unauthorized
  | .notOk => .error .unauthorized
  | .success user newHeaders =>
      let reqCpy := { reqCpy with headers := newHeaders }
      if p.options.DisableImpersonation then
        .ok (.passthrough req)
      else if hasImpersonation reqCpy.headers then
        .error .impersonateHeader
      else if user.name == "" then
        .error .noName
      else
        let groups :=
          if user.groups.contains AllAuthenticated then user.groups
          else user.groups ++ [AllAuthenticated]
        let extra := user.extra.getD []
        let extra :=
          if p.options.ExtraUserHeadersClientIPEnabled then
            appendExtra extra UserHeaderClientIPKey req.remoteAddr
          else extra
        let extra := mergeExtraUserHeaders extra p.options.ExtraUserHeaders
        .ok (.impersonate ⟨user.name, groups, extra⟩ reqCpy)

/-- `Proxy.Error`: map the error handed to the reverse proxy's error
handler to an HTTP status and body (`none` is a nil error). -/
def Proxy.Error : Option ProxyErr → Nat × String
  | none => (500, "")
  | some .unauthorized => (401, "Unauthorized")
  | some .impersonateHeader =>
      (403, "Impersonation requests are disabled when using kube-oidc-proxy")
  | some .noName =>
      (403, "Username claim not available in OIDC Issuer response")
  | some (.other _) => (500, "")

/-- The reverse proxy engine around the transport: a `RoundTrip` error is
turned into an HTTP error response by `Proxy.Error` and nothing reaches the
upstream; otherwise the request was forwarded. -/
def Proxy.handle (p : Proxy) (req : Request) : (Nat × String) ⊕ Forwarded :=
  match p.RoundTrip req with
  | .error e => .inl (Proxy.Error (some e))
  | .ok f => .inr f

/-! ### Concrete fixtures used by counterexamples and witnesses -/

/-- A request carrying an inbound impersonation header next to its bearer
token. -/
def impReq : Request :=
  { headers := [("Impersonate-User", ["bob"]), ("Authorization", ["Bearer tok"])],
    remoteAddr := "10.0.0.7:32768" }

/-- A request carrying only a bearer token. -/
def plainReq : Request :=
  { headers := [("Authorization", ["Bearer tok"])],
    remoteAddr := "10.0.0.7:32768" }

/-- A verified user with a name. -/
def alice : UserInfo := { name := "alice", groups := ["dev"], extra := some [("Foo", ["z"])] }

/-- A verified user whose resolved username is empty. -/
def nameless : UserInfo := { name := "", groups := ["dev"], extra := none }

/-- An authenticator accepting every request as `u`, deleting the
`Authorization` header of the clone as the external bearer-token
authenticator does on success. -/
def acceptAs (u : UserInfo) : Request → AuthResult :=
  fun r => .success u (eraseAuth r.headers)

/-- An authenticator failing every request with a non-nil error. -/
def rejectWithErr : Request → AuthResult := fun _ => .authErr

/-- An authenticator returning `ok = false` with a nil error (for example,
no bearer token present). -/
def rejectNotOk : Request → AuthResult := fun _ => .notOk

/-- All options off. -/
def defaultOptions : Options :=
  { DisableImpersonation := false, TokenReview := false,
    ExtraUserHeaders := [], ExtraUserHeadersClientIPEnabled := false }

/-- A review function failing with a transport error. -/
def noReview : Request → ReviewResult := fun _ => .error ()

/-- A proxy from options, authenticator and review function. -/
def mkProxy (o : Options) (a : Request → AuthResult)
    (rev : Request → ReviewResult) : Proxy :=
  { options := o, auth := a, review := rev }

/-! ### Lemmas about the header and extra-map operations -/

theorem acceptAs_strips (u : UserInfo) : StripsOnlyAuth (acceptAs u) := by
  intro r u' hdrs h
  injection h with h1 h2
  exact h2.symm

theorem lookupExtra_appendExtra (e : List (String × List String))
    (k v k' : String) :
    lookupExtra (appendExtra e k v) k' =
      lookupExtra e k' ++ if k' = k then [v] else [] := by
  induction e with
  | nil =>
      by_cases h : k' = k
      · simp [appendExtra, lookupExtra, h]
      · simp [appendExtra, lookupExtra, h, Ne.symm h]
  | cons kv t ih =>
      by_cases h1 : kv.1 = k
      · subst h1
        by_cases h2 : kv.1 = k'
        · subst h2
          simp [appendExtra, lookupExtra]
        · simp [appendExtra, lookupExtra, h2, Ne.symm h2]
      · by_cases h2 : kv.1 = k'
        · subst h2
          simp [appendExtra, lookupExtra, h1]
        · simp [appendExtra, lookupExtra, h1, h2, ih]

theorem lookupExtra_foldl (vs : List String)
    (e : List (String × List String)) (k k' : String) :
    lookupExtra (vs.foldl (fun e2 v => appendExtra e2 k v) e) k' =
      lookupExtra e k' ++ if k' = k then vs else [] := by
  induction vs generalizing e with
  | nil => simp
  | cons v vs ih =>
      rw [List.foldl_cons, ih, lookupExtra_appendExtra]
      by_cases h : k' = k <;> simp [h]

theorem lookupExtra_merge (cfg : List (String × List String))
    (e : List (String × List String)) (k : String) :
    lookupExtra (mergeExtraUserHeaders e cfg) k =
      lookupExtra e k ++ flatValues cfg k := by
  induction cfg generalizing e with
  | nil => simp [mergeExtraUserHeaders, flatValues]
  | cons kv t ih =>
      rw [show mergeExtraUserHeaders e (kv :: t) =
            mergeExtraUserHeaders
              (kv.2.foldl (fun e2 v => appendExtra e2 kv.1 v) e) t from rfl]
      rw [ih, lookupExtra_foldl]
      simp only [flatValues]
      by_cases h : k = kv.1
      · simp [h]
      · simp [h, Ne.symm h]

theorem hasAuthorization_eraseAuth (h : Header) :
    hasAuthorization (eraseAuth h) = false := by
  rw [Bool.eq_false_iff]
  intro hc
  rw [hasAuthorization, List.any_eq_true] at hc
  obtain ⟨kv, hmem, hp⟩ := hc
  rw [eraseAuth, List.mem_filter] at hmem
  simp [hp] at hmem

theorem hasImpersonation_eraseAuth (h : Header)
    (hi : hasImpersonation h = true) :
    hasImpersonation (eraseAuth h) = true := by
  rw [hasImpersonation, List.any_eq_true] at hi ⊢
  obtain ⟨kv, hmem, hp⟩ := hi
  refine ⟨kv, ?_, hp⟩
  rw [eraseAuth, List.mem_filter]
  refine ⟨hmem, ?_⟩
  by_cases ha : lowerStr kv.1 = "authorization"
  · rw [ha] at hp
    exact absurd hp (by decide)
  · simp [ha]

/-- The unique successful-impersonation outcome of `RoundTrip`: under the
branch conditions of the source, the request is pushed through the
impersonating round tripper with exactly this configuration and this
request. -/
theorem roundTrip_success_eq (p : Proxy) (req : Request) (u : UserInfo)
    (hdrs : Header) (hs : p.auth req = .success u hdrs)
    (hdi : p.options.DisableImpersonation = false)
    (himp : hasImpersonation hdrs = false)
    (hname : (u.name == "") = false) :
    p.RoundTrip req = .ok (.impersonate
      { UserName := u.name,
        Groups := if u.groups.contains AllAuthenticated then u.groups
                  else u.groups ++ [AllAuthenticated],
        Extra := mergeExtraUserHeaders
          (if p.options.ExtraUserHeadersClientIPEnabled then
             appendExtra (u.extra.getD []) UserHeaderClientIPKey req.remoteAddr
           else u.extra.getD [])
          p.options.ExtraUserHeaders }
      { req with headers := hdrs }) := by
  simp only [Proxy.RoundTrip, hs]
  simp [hdi, himp, hname]

/-! ### Claims -/

/-- C3: the error handler maps `errUnauthorized` to 401 with body
"Unauthorized", the impersonation-header error to 403 with body
"Impersonation requests are disabled when using kube-oidc-proxy", the
no-username error to 403 with body "Username claim not available in OIDC
Issuer response", and every other non-nil error to 500 with empty body. -/
theorem C3_error_mapping :
    Proxy.Error (some .unauthorized) = (401, "Unauthorized") ∧
    Proxy.Error (some .impersonateHeader) =
      (403, "Impersonation requests are disabled when using kube-oidc-proxy") ∧
    Proxy.Error (some .noName) =
      (403, "Username claim not available in OIDC Issuer response") ∧
    ∀ msg : String, Proxy.Error (some (.other msg)) = (500, "") :=
  ⟨rfl, rfl, rfl, fun _ => rfl⟩

/-- C7: with `DisableImpersonation` set and authentication successful, the
proxy forwards the original inbound request — all headers, the client's
`Authorization` included, unchanged — through the passthrough transport,
emitting no impersonation headers. -/
theorem C7_disable_impersonation_fidelity (p : Proxy) (req : Request)
    (u : UserInfo) (hdrs : Header)
    (hs : p.auth req = .success u hdrs)
    (hdi : p.options.DisableImpersonation = true) :
    p.RoundTrip req = .ok (.passthrough req) := by
  simp only [Proxy.RoundTrip, hs]
  simp [hdi]

/-- C7 witness: a concrete proxy in disabled-impersonation mode forwards
the authenticated request untouched. -/
theorem C7_witness :
    (mkProxy { defaultOptions with DisableImpersonation := true }
        (acceptAs alice) noReview).RoundTrip plainReq =
      .ok (.passthrough plainReq) :=
  C7_disable_impersonation_fidelity _ plainReq alice
    (eraseAuth plainReq.headers) rfl rfl

/-- C9: when the authenticator returns `ok = false` with a nil error, the
result is `errUnauthorized` whatever the review function — so also with
`TokenReview` enabled — and the TokenReview endpoint is never consulted:
the outcome is uniform in the review function. -/
theorem C9_notOk_never_reviews (p : Proxy) (req : Request)
    (h : p.auth req = .notOk) :
    ∀ rev : Request → ReviewResult,
      Proxy.RoundTrip { p with review := rev } req = .error .unauthorized := by
  intro rev
  simp only [Proxy.RoundTrip, h]

/-- C9 witness: with `TokenReview` enabled and a review function that would
accept the token, a nil-error `ok = false` outcome is still Unauthorized. -/
theorem C9_witness :
    Proxy.RoundTrip
      { mkProxy { defaultOptions with TokenReview := true } rejectNotOk
          noReview with review := fun _ => .ok true } plainReq =
      .error .unauthorized :=
  C9_notOk_never_reviews
    (mkProxy { defaultOptions with TokenReview := true } rejectNotOk noReview)
    plainReq rfl (fun _ => .ok true)

/-- C10: a nil error still produces a response, status 500 with empty
body, and the handler is total: every error value yields a definite
status among 401, 403, 500. -/
theorem C10_nil_error_total :
    Proxy.Error none = (500, "") ∧
    ∀ e : Option ProxyErr,
      (Proxy.Error e).1 = 401 ∨ (Proxy.Error e).1 = 403 ∨
      (Proxy.Error e).1 = 500 := by
  refine ⟨rfl, ?_⟩
  intro e
  rcases e with _ | e
  · simp [Proxy.Error]
  · cases e <;> simp [Proxy.Error]

/-- C6: on an authentication error with `TokenReview` enabled, the proxy
delegates to the TokenReview endpoint: a nil-error authenticated verdict
forwards the clone unmodified through the passthrough transport (no
impersonation configuration, no proxy credentials); a nil-error negative
verdict or a review error yields `errUnauthorized`. -/
theorem C6_token_review_fallback (p : Proxy) (req : Request)
    (ha : p.auth req = .authErr)
    (htr : p.options.TokenReview = true) :
    (p.review req = .ok true →
      p.RoundTrip req = .ok (.passthrough req)) ∧
    (p.review req = .ok false →
      p.RoundTrip req = .error .unauthorized) ∧
    (∀ e : Unit, p.review req = .error e →
      p.RoundTrip req = .error .unauthorized) := by
  refine ⟨?_, ?_, ?_⟩
  · intro hr
    simp [Proxy.RoundTrip, ha, htr, Proxy.tokenReview, hr]
  · intro hr
    simp [Proxy.RoundTrip, ha, htr, Proxy.tokenReview, hr]
  · intro e hr
    simp [Proxy.RoundTrip, ha, htr, Proxy.tokenReview, hr]

/-- C6 witness: a concrete proxy whose OIDC authentication errors and whose
review accepts forwards the request through the passthrough transport. -/
theorem C6_witness :
    (mkProxy { defaultOptions with TokenReview := true } rejectWithErr
        (fun _ => .ok true)).RoundTrip plainReq =
      .ok (.passthrough plainReq) :=
  (C6_token_review_fallback _ plainReq rfl rfl).1 rfl

/-- C1 counterexample: the claim fails as stated.  With
`DisableImpersonation` set and authentication successful, a request
carrying an inbound `Impersonate-User` header is forwarded to the upstream
through the passthrough transport instead of being rejected with the
impersonation error: the inbound-header check runs only on the
impersonation path. -/
theorem C1_counterexample :
    hasImpersonation impReq.headers = true ∧
    (mkProxy { defaultOptions with DisableImpersonation := true }
        (acceptAs alice) noReview).handle impReq =
      .inr (.passthrough impReq) :=
  ⟨by decide, by rfl⟩

/-- C1 (amended): when authentication succeeds and `DisableImpersonation`
is not set, every request whose inbound header set contains a key that
case-insensitively equals `Impersonate-User` or `Impersonate-Group` or
starts with `Impersonate-Extra-` is rejected with the impersonation error,
HTTP 403 with its body, and nothing is forwarded to the upstream. -/
theorem C1_impersonation_rejected (p : Proxy) (req : Request)
    (u : UserInfo) (hdrs : Header)
    (hstrip : StripsOnlyAuth p.auth)
    (hs : p.auth req = .success u hdrs)
    (hdi : p.options.DisableImpersonation = false)
    (hi : hasImpersonation req.headers = true) :
    p.handle req =
      .inl (403, "Impersonation requests are disabled when using kube-oidc-proxy") := by
  have hh : hdrs = eraseAuth req.headers := hstrip req u hdrs hs
  have hi2 : hasImpersonation hdrs = true := by
    rw [hh]
    exact hasImpersonation_eraseAuth req.headers hi
  have hrt : p.RoundTrip req = .error .impersonateHeader := by
    simp only [Proxy.RoundTrip, hs]
    simp [hdi, hi2]
  simp [Proxy.handle, hrt, Proxy.Error]

/-- C1 witness: a concrete proxy with impersonation enabled rejects the
request with the inbound impersonation header. -/
theorem C1_witness :
    (mkProxy defaultOptions (acceptAs alice) noReview).handle impReq =
      .inl (403, "Impersonation requests are disabled when using kube-oidc-proxy") :=
  C1_impersonation_rejected _ impReq alice (eraseAuth impReq.headers)
    (acceptAs_strips alice) rfl rfl (by decide)

/-- C4 counterexample: the claim fails as stated.  With
`DisableImpersonation` set, a verified token whose resolved username is
empty is forwarded to the upstream through the passthrough transport: the
empty-name check runs only on the impersonation path. -/
theorem C4_counterexample :
    nameless.name = "" ∧
    (mkProxy { defaultOptions with DisableImpersonation := true }
        (acceptAs nameless) noReview).handle plainReq =
      .inr (.passthrough plainReq) :=
  ⟨rfl, by rfl⟩

/-- C4 (amended): when `DisableImpersonation` is not set and the
authenticated request carries no inbound impersonation headers, every
verified token whose resolved username is empty yields HTTP 403 with body
"Username claim not available in OIDC Issuer response" and nothing is
forwarded to the upstream. -/
theorem C4_empty_username_rejected (p : Proxy) (req : Request)
    (u : UserInfo) (hdrs : Header)
    (hs : p.auth req = .success u hdrs)
    (hdi : p.options.DisableImpersonation = false)
    (himp : hasImpersonation hdrs = false)
    (hname : u.name = "") :
    p.handle req =
      .inl (403, "Username claim not available in OIDC Issuer response") := by
  have hrt : p.RoundTrip req = .error .noName := by
    simp only [Proxy.RoundTrip, hs]
    simp [hdi, himp, hname]
  simp [Proxy.handle, hrt, Proxy.Error]

/-- C4 witness: a concrete proxy rejects an empty-named verified user with
the specific 403 body. -/
theorem C4_witness :
    (mkProxy defaultOptions (acceptAs nameless) noReview).handle plainReq =
      .inl (403, "Username claim not available in OIDC Issuer response") :=
  C4_empty_username_rejected _ plainReq nameless
    (eraseAuth plainReq.headers) rfl rfl (by decide) rfl

/-- C5: every request forwarded with impersonation carries
`system:authenticated` among the outbound groups; the group list equals
the authenticated user's groups when it already contains
`system:authenticated`, and that list with `system:authenticated`
appended at the end otherwise. -/
theorem C5_system_authenticated_group (p : Proxy) (req : Request)
    (u : UserInfo) (hdrs : Header)
    (hs : p.auth req = .success u hdrs)
    (hdi : p.options.DisableImpersonation = false)
    (himp : hasImpersonation hdrs = false)
    (hname : u.name ≠ "") :
    ∃ conf fwd, p.RoundTrip req = .ok (.impersonate conf fwd) ∧
      AllAuthenticated ∈ conf.Groups ∧
      (AllAuthenticated ∈ u.groups → conf.Groups = u.groups) ∧
      (AllAuthenticated ∉ u.groups →
        conf.Groups = u.groups ++ [AllAuthenticated]) := by
  have hnb : (u.name == "") = false := by simp [hname]
  have hcon : u.groups.contains AllAuthenticated = true ↔
      AllAuthenticated ∈ u.groups := List.elem_iff
  refine ⟨_, _, roundTrip_success_eq p req u hdrs hs hdi himp hnb, ?_, ?_, ?_⟩
  · by_cases hc : u.groups.contains AllAuthenticated
    · rw [if_pos hc]
      exact hcon.mp hc
    · rw [if_neg hc]
      simp
  · intro hm
    rw [if_pos (hcon.mpr hm)]
  · intro hm
    rw [if_neg (fun hc => hm (hcon.mp hc))]

/-- C5 witness: a concrete user without `system:authenticated` gets it
appended at the end of the outbound group list. -/
theorem C5_witness :
    ∃ conf fwd,
      (mkProxy defaultOptions (acceptAs alice) noReview).RoundTrip plainReq =
        .ok (.impersonate conf fwd) ∧
      AllAuthenticated ∈ conf.Groups ∧
      (AllAuthenticated ∈ alice.groups → conf.Groups = alice.groups) ∧
      (AllAuthenticated ∉ alice.groups →
        conf.Groups = alice.groups ++ [AllAuthenticated]) :=
  C5_system_authenticated_group _ plainReq alice
    (eraseAuth plainReq.headers) rfl rfl (by decide) (by decide)

/-- C8: for every authenticated impersonated request, the outbound extra
map per key is the authenticated user's extra values, then — when
`ExtraUserHeadersClientIPEnabled` — the request's remote address under
`Remote-Client-IP`, then the configured `ExtraUserHeaders` values for that
key in configured order; nothing is replaced, only appended. -/
theorem C8_extra_headers_merge (p : Proxy) (req : Request)
    (u : UserInfo) (hdrs : Header)
    (hs : p.auth req = .success u hdrs)
    (hdi : p.options.DisableImpersonation = false)
    (himp : hasImpersonation hdrs = false)
    (hname : u.name ≠ "") :
    ∃ conf fwd, p.RoundTrip req = .ok (.impersonate conf fwd) ∧
      ∀ k, lookupExtra conf.Extra k =
        lookupExtra (u.extra.getD []) k ++
        (if p.options.ExtraUserHeadersClientIPEnabled = true ∧
            k = UserHeaderClientIPKey
         then [req.remoteAddr] else []) ++
        flatValues p.options.ExtraUserHeaders k := by
  have hnb : (u.name == "") = false := by simp [hname]
  refine ⟨_, _, roundTrip_success_eq p req u hdrs hs hdi himp hnb, ?_⟩
  intro k
  rw [lookupExtra_merge]
  by_cases hip : p.options.ExtraUserHeadersClientIPEnabled
  · rw [if_pos hip, lookupExtra_appendExtra]
    by_cases hk : k = UserHeaderClientIPKey
    · simp [hip, hk]
    · simp [hip, hk]
  · simp [hip]

/-- C8 witness: with the client-IP option on, a configured static entry
for the same key, and a user extra of its own, the per-key value lists
come out base-then-address-then-configured. -/
theorem C8_witness :
    ∃ conf fwd,
      (mkProxy
        { DisableImpersonation := false, TokenReview := false,
          ExtraUserHeaders := [("Remote-Client-IP", ["static"]), ("Foo", ["a", "b"])],
          ExtraUserHeadersClientIPEnabled := true }
        (acceptAs alice) noReview).RoundTrip plainReq =
        .ok (.impersonate conf fwd) ∧
      ∀ k, lookupExtra conf.Extra k =
        lookupExtra (alice.extra.getD []) k ++
        (if (true : Bool) = true ∧ k = UserHeaderClientIPKey
         then [plainReq.remoteAddr] else []) ++
        flatValues [("Remote-Client-IP", ["static"]), ("Foo", ["a", "b"])] k :=
  C8_extra_headers_merge _ plainReq alice (eraseAuth plainReq.headers)
    rfl rfl (by decide) (by decide)

/-- C2: whenever `RoundTrip` pushes a request through the impersonating
round tripper (outbound `Impersonate-User` set, proxy credentials
attached by `clientTransport`), the forwarded request is the clone whose
`Authorization` header the authenticator deleted on success: its header
set is the inbound set with the Authorization entry erased, so the
client's bearer token never accompanies an impersonated request. -/
theorem C2_no_client_credentials (p : Proxy) (req : Request)
    (conf : ImpersonationConfig) (fwd : Request)
    (hstrip : StripsOnlyAuth p.auth)
    (hrt : p.RoundTrip req = .ok (.impersonate conf fwd)) :
    fwd.headers = eraseAuth req.headers ∧
    hasAuthorization fwd.headers = false := by
  simp only [Proxy.RoundTrip] at hrt
  split at hrt
  · -- authentication error: TokenReview fallback or Unauthorized,
    -- never the impersonating transport
    split at hrt
    · rw [Proxy.tokenReview] at hrt
      split at hrt <;> simp at hrt
    · exact Except.noConfusion hrt
  · -- ok = false: Unauthorized
    exact Except.noConfusion hrt
  · -- success
    next u hdrs heq =>
      split at hrt
      · -- DisableImpersonation: passthrough, not impersonate
        simp at hrt
      · split at hrt
        · -- inbound impersonation header: error
          exact Except.noConfusion hrt
        · split at hrt
          · -- empty username: error
            exact Except.noConfusion hrt
          · simp only [Except.ok.injEq, Forwarded.impersonate.injEq] at hrt
            obtain ⟨hconf, hfwd⟩ := hrt
            have hh : hdrs = eraseAuth req.headers := hstrip req u hdrs heq
            subst hfwd
            exact ⟨hh, by rw [hh]; exact hasAuthorization_eraseAuth req.headers⟩

/-- C2 witness: for a concrete authenticated request, the forwarded clone
carries no Authorization entry. -/
theorem C2_witness :
    ({ headers := [], remoteAddr := "10.0.0.7:32768" } : Request).headers =
      eraseAuth plainReq.headers ∧
    hasAuthorization
      ({ headers := [], remoteAddr := "10.0.0.7:32768" } : Request).headers =
      false :=
  C2_no_client_credentials (mkProxy defaultOptions (acceptAs alice) noReview)
    plainReq
    ⟨"alice", ["dev", "system:authenticated"], [("Foo", ["z"])]⟩
    { headers := [], remoteAddr := "10.0.0.7:32768" }
    (acceptAs_strips alice) (by rfl)

end KubeOidcProxy
